import Mathlib

/-!
Verification development for the closer-ads-cron-service repository.

Part 1 embeds the HTTP service in `src/app.js` (the Express handler for
`POST /run`): bearer-token extraction (the regex at line 34), the
`verifyIdToken` audience loop (lines 16-27), the brand loop that writes one
merged document per brand into the `ads` collection (lines 45-61), and the
catch-all error mapping (lines 63-68).

Part 2 models the incremental sync engine (pagination fetcher, task
dispatcher, per-brand watermark update).  That engine lives in
`python_app/app.py`, which the repository README names but which is not
present under `src/`; those definitions are therefore modelled from the
spec, and each carries a doc comment saying so.
-/

/-- Firestore / JSON field values, flattened to the shapes the service
manipulates (strings, integers, booleans, null). -/
inductive JVal where
  | null
  | str (s : String)
  | num (n : Int)
  | bool (b : Bool)
deriving DecidableEq

/-- JavaScript truthiness on `JVal`, as used by `brand.name || null`
(app.js line 53): null, empty string, 0 and false are falsy. -/
def truthy : JVal → Bool
  | JVal.null => false
  | JVal.str s => !s.isEmpty
  | JVal.num n => n != 0
  | JVal.bool b => b

/-- A concrete document payload: an association list of fields, as passed to
`adDocRef.set` (app.js lines 51-56). -/
def Payload : Type := List (String × JVal)

instance : DecidableEq Payload := by
  unfold Payload
  infer_instance

/-- A stored document, read field-by-field. -/
def DocF : Type := String → Option JVal

/-- The Firestore state: collection name, then document id, to an optional
document. -/
def Store : Type := String → String → Option DocF

/-- Field access through an optional document (a missing document has no
fields). -/
def docField (od : Option DocF) (f : String) : Option JVal :=
  od.bind (fun d => d f)

/-- `set(payload, {merge: true})` semantics (app.js line 58): fields named in
the payload are overwritten, every other field of the existing document is
kept; a missing document is created from the payload alone. -/
def mergeInto (old : Option DocF) (payload : Payload) : DocF :=
  fun f =>
    match payload.lookup f with
    | some v => some v
    | none => docField old f

/-- Write one merged document into the store. -/
def setMerge (st : Store) (coll docId : String) (payload : Payload) : Store :=
  fun c d =>
    if c = coll ∧ d = docId then some (mergeInto (st coll docId) payload)
    else st c d

/-- An HTTP response: status code plus JSON object body (field list). -/
structure HttpResponse where
  status : Nat
  body : List (String × JVal)
deriving DecidableEq

/-- Externally observable calls issued by the `/run` handler: a token
verification round-trip, the `brands` collection read, and each
`ads` document write. -/
inductive Effect where
  | verifyTok (token : String)
  | getBrands
  | setAd (docId : String) (payload : Payload)

/-- The environment one `/run` invocation executes in: the configured
audience list (`EXPECT_AUDIENCES`), the OAuth verifier outcome per
(token, audience) pair, the run-start timestamp (`new Date().toISOString()`),
the outcome of the `brands` collection read (`.error m` models a rejected
promise with message `m`), and the outcome of each `ads` document write
(`some m` models a rejection with message `m`). -/
structure Env where
  audiences : List String
  verifies : String → String → Bool
  now : String
  brandsGet : Except String (List (String × Payload))
  setOutcome : String → Option String

/-- app.js lines 16-27: throw `no-token` on a falsy token, otherwise try each
configured audience in turn, succeeding on the first that verifies and
throwing `invalid-token` when the list is exhausted (hence also when the
list is empty). -/
def verifyIdToken (env : Env) (token : String) : Except String Unit :=
  if token = "" then Except.error "no-token"
  else if env.audiences.any (fun aud => env.verifies token aud) then Except.ok ()
  else Except.error "invalid-token"

/-- Line terminators, which `.` in a JavaScript regex never matches. -/
def isLineTerm (c : Char) : Bool :=
  c = '\n' || c = '\r' || c = Char.ofNat 0x2028 || c = Char.ofNat 0x2029

/-- Strip the literal prefix "Bearer " (capital B, one space). -/
def stripBearer : List Char → Option (List Char)
  | 'B' :: 'e' :: 'a' :: 'r' :: 'e' :: 'r' :: ' ' :: rest => some rest
  | _ => none

/-- app.js line 34: `authHeader.match(/^Bearer (.+)$/)`.  The capture is the
text after "Bearer ", which must be non-empty and (since `.` does not match
line terminators and the regex has no `m` flag) free of line terminators. -/
def bearerToken (h : String) : Option String :=
  match stripBearer h.data with
  | some rest =>
      if rest.isEmpty || rest.any isLineTerm then none else some (String.mk rest)
  | none => none

/-- Document id used for each brand's write: `ad_${brandId}` (line 50). -/
def adDocId (brandId : String) : String := "ad_" ++ brandId

/-- The payload written per brand (app.js lines 51-56). -/
def adPayload (now brandId : String) (data : Payload) : Payload :=
  [("brandId", JVal.str brandId),
   ("brandName",
     match data.lookup "name" with
     | some v => if truthy v then v else JVal.null
     | none => JVal.null),
   ("fetchedAt", JVal.str now),
   ("source", JVal.str "ads-fetcher-service")]

/-- The list of (document id, payload) writes the brand loop issues. -/
def runOps (env : Env) (docs : List (String × Payload)) : List (String × Payload) :=
  docs.map (fun bd => (adDocId bd.1, adPayload env.now bd.1 bd.2))

/-- Apply every write whose promise resolves; rejected writes leave the store
untouched. -/
def applyOps (ops : List (String × Payload)) (oc : String → Option String) (st : Store) : Store :=
  ops.foldl (fun s op => if oc op.1 = none then setMerge s "ads" op.1 op.2 else s) st

/-- The rejection `Promise.all` surfaces: the first rejected write's message
(the writes are issued in brand order). -/
def firstFailure (ops : List (String × Payload)) (oc : String → Option String) : Option String :=
  (ops.filterMap (fun op => oc op.1)).head?

/-- A `{"error": m}` response body. -/
def errBody (m : String) : List (String × JVal) := [("error", JVal.str m)]

/-- app.js lines 63-68: the catch block maps the messages `no-token` and
`invalid-token` to 401 and every other message to 500. -/
def catchResp (m : String) : HttpResponse :=
  if m = "no-token" ∨ m = "invalid-token" then ⟨401, errBody m⟩
  else ⟨500, errBody m⟩

/-- Result of one `/run` invocation: the HTTP response, the final store, and
the trace of external calls issued. -/
structure RunOutput where
  resp : HttpResponse
  store : Store
  trace : List Effect

/-- The `POST /run` handler (app.js lines 31-70).  `authHeader` models
`req.get('Authorization')` (absent headers become `''` via `|| ''`).  On the
success path the body is `{status: "ok", processed: ops.length}` (line 62). -/
def runHandler (env : Env) (st : Store) (authHeader : Option String) : RunOutput :=
  match bearerToken (authHeader.getD "") with
  | none => ⟨⟨401, errBody "missing-token"⟩, st, []⟩
  | some tok =>
    match verifyIdToken env tok with
    | Except.error m => ⟨catchResp m, st, [Effect.verifyTok tok]⟩
    | Except.ok _ =>
      match env.brandsGet with
      | Except.error m => ⟨catchResp m, st, [Effect.verifyTok tok, Effect.getBrands]⟩
      | Except.ok docs =>
        match firstFailure (runOps env docs) env.setOutcome with
        | some m =>
          ⟨catchResp m, applyOps (runOps env docs) env.setOutcome st,
            [Effect.verifyTok tok, Effect.getBrands] ++
              (runOps env docs).map (fun op => Effect.setAd op.1 op.2)⟩
        | none =>
          ⟨⟨200, [("status", JVal.str "ok"),
                  ("processed", JVal.num (Int.ofNat docs.length))]⟩,
            applyOps (runOps env docs) env.setOutcome st,
            [Effect.verifyTok tok, Effect.getBrands] ++
              (runOps env docs).map (fun op => Effect.setAd op.1 op.2)⟩

/-!
Part 2: the incremental sync engine.  The repository README names
`python_app/app.py` as the service implementing fetch/paginate/dispatch and
the per-brand `lastFetched` watermark; that file is not present under `src/`
(only its deployment and trigger scripts are), so the definitions below are
modelled from the spec.
-/

/-- Modelled from the spec: an Ad as the missing `python_app/app.py`
manipulates it — `{id, brandId, createdTime, payload: opaque}` (spec §3);
timestamps are modelled as naturals. -/
structure Ad where
  id : String
  brandId : String
  createdTime : Nat
  payload : String
deriving DecidableEq

/-- Modelled from the spec: one page of results from the external ads API;
whether a `nextPageToken` follows is modelled by whether another page
follows in the API's page list. -/
structure Page where
  ads : List Ad
deriving DecidableEq

/-- Modelled from the spec: hard maximum page count of the Pagination
Fetcher (spec §4.2, "e.g., 50 pages"). -/
def MAX_PAGES : Nat := 50

/-- Does this page contain an ad strictly older than the cutoff? -/
def hasOldAd (cutoff : Nat) (p : Page) : Bool :=
  p.ads.any (fun a => a.createdTime < cutoff)

/-- Modelled from the spec (§4.2), missing `python_app/app.py` pagination
loop: walk successive page-fetch outcomes, keeping ads with
`createdTime >= cutoff`; stop when a page contains an older ad, when no
further page exists, or at the hard page bound; a page-fetch failure (after
retries) propagates and discards everything gathered.  Returns the kept
ads, the number of pages fetched, and whether the hard page bound was hit
with pages still remaining — the recoverable "return what was gathered, log
a warning" condition of §4.2, after which the watermark must not advance. -/
def fetchGo (cutoff : Nat) : List (Except String Page) → Nat → List Ad →
    Except String (List Ad × Nat × Bool)
  | [], fetched, acc => Except.ok (acc, fetched, false)
  | p :: rest, fetched, acc =>
    if MAX_PAGES ≤ fetched then Except.ok (acc, fetched, true)
    else
      match p with
      | Except.error m => Except.error m
      | Except.ok page =>
        if hasOldAd cutoff page then
          Except.ok (acc ++ page.ads.filter (fun a => cutoff ≤ a.createdTime),
            fetched + 1, false)
        else
          fetchGo cutoff rest (fetched + 1)
            (acc ++ page.ads.filter (fun a => cutoff ≤ a.createdTime))

/-- Modelled from the spec: one full pagination pass, starting from page 1
with nothing gathered; the Boolean marks a truncated (bound-hit) pass. -/
def fetchNewAdsFull (api : List (Except String Page)) (cutoff : Nat) :
    Except String (List Ad × Nat × Bool) :=
  fetchGo cutoff api 0 []

/-- Modelled from the spec: `fetchNewAds(pageId, cutoff)` of the Pagination
Fetcher — the ads gathered and pages fetched of a full pagination pass. -/
def fetchNewAds (api : List (Except String Page)) (cutoff : Nat) :
    Except String (List Ad × Nat) :=
  match fetchNewAdsFull api cutoff with
  | Except.error m => Except.error m
  | Except.ok (ads, n, _) => Except.ok (ads, n)

/-- All ads the API would serve across its successful pages, in page order. -/
def allFetchedAds (api : List (Except String Page)) : List Ad :=
  (api.filterMap Except.toOption).flatMap Page.ads

/-- Modelled from the spec: the Pagination Fetcher's documented precondition
that the API returns ads in descending recency order (spec §4.2, §9). -/
def pagesDescending (api : List (Except String Page)) : Prop :=
  (allFetchedAds api).Pairwise (fun a b => b.createdTime ≤ a.createdTime)

instance (api : List (Except String Page)) : Decidable (pagesDescending api) := by
  unfold pagesDescending
  infer_instance

/-- Modelled from the spec: the dedupe key, a deterministic function of
`(brandId, adId)` (spec §3, DispatchRecord). -/
def dedupeKey (brandId adId : String) : String :=
  brandId ++ "_" ++ adId

/-- Modelled from the spec: the downstream task queue, observable only
through the set of dedupe keys already enqueued (spec §4.3: the queue
enforces idempotency by dedupe key). -/
structure Queue where
  keys : List String
deriving DecidableEq

/-- Running totals of one dispatch call. -/
structure DispatchOut where
  queue : Queue
  created : Nat
  skipped : Nat
  errored : Nat
deriving DecidableEq

/-- Modelled from the spec: dispatch of one ad.  A duplicate dedupe key is
absorbed by the queue and counted as skipped; otherwise a hard enqueue
failure (`hardFail`, after retries) is recorded for that ad without
aborting its siblings; otherwise the task is created (spec §4.3). -/
def dstep (hardFail : String → Bool) (o : DispatchOut) (a : Ad) : DispatchOut :=
  if dedupeKey a.brandId a.id ∈ o.queue.keys then
    { o with skipped := o.skipped + 1 }
  else if hardFail (dedupeKey a.brandId a.id) then
    { o with errored := o.errored + 1 }
  else
    { queue := ⟨dedupeKey a.brandId a.id :: o.queue.keys⟩, created := o.created + 1,
      skipped := o.skipped, errored := o.errored }

/-- Modelled from the spec: `dispatch(ads)` of the Task Dispatcher, folding
`dstep` over the ad sequence. -/
def dispatch (hardFail : String → Bool) (q : Queue) (ads : List Ad) : DispatchOut :=
  ads.foldl (dstep hardFail) ⟨q, 0, 0, 0⟩

/-- Modelled from the spec: a brand document with its watermark
(`lastFetchedAt`, absent on first run; spec §3). -/
structure BrandDoc where
  id : String
  pageId : String
  lastFetchedAt : Option Nat
deriving DecidableEq

/-- Modelled from the spec: default lookback of 10 days, in seconds. -/
def DEFAULT_LOOKBACK : Nat := 10 * 24 * 60 * 60

/-- Modelled from the spec: the CutoffWindow — the watermark when present,
else `now - DEFAULT_LOOKBACK` (spec §3). -/
def cutoffOf (now : Nat) (b : BrandDoc) : Nat :=
  match b.lastFetchedAt with
  | some t => t
  | none => now - DEFAULT_LOOKBACK

/-- Outcome of syncing one brand. -/
structure BrandResult where
  brand : BrandDoc
  failed : Bool
  adsFetched : Nat
  created : Nat
  skipped : Nat
  queue : Queue

/-- Modelled from the spec (§4.1, §4.2, §7), missing `python_app/app.py`
per-brand sync: fetch the brand's new ads; a fetch failure is a brand
failure with the brand document (and so its watermark) untouched; otherwise
dispatch what was gathered, and advance `lastFetchedAt` to the run-start
time exactly when no ad's enqueue hard-failed AND the pagination pass was
not truncated by the hard page bound (§4.2: on a bound hit, return what was
gathered, log a warning, do not update the watermark).  An empty,
untruncated ad set needs no dispatch and also advances. -/
def runBrand (now : Nat) (api : List (Except String Page)) (hardFail : String → Bool)
    (q : Queue) (b : BrandDoc) : BrandResult :=
  match fetchNewAdsFull api (cutoffOf now b) with
  | Except.error _ => ⟨b, true, 0, 0, 0, q⟩
  | Except.ok (ads, _, truncated) =>
    if (dispatch hardFail q ads).errored = 0 then
      if truncated then
        ⟨b, false, ads.length, (dispatch hardFail q ads).created,
          (dispatch hardFail q ads).skipped, (dispatch hardFail q ads).queue⟩
      else
        ⟨{ b with lastFetchedAt := some now }, false, ads.length,
          (dispatch hardFail q ads).created, (dispatch hardFail q ads).skipped,
          (dispatch hardFail q ads).queue⟩
    else
      ⟨b, true, ads.length, (dispatch hardFail q ads).created,
        (dispatch hardFail q ads).skipped, (dispatch hardFail q ads).queue⟩

/-! Concrete stores and environments used by witnesses and counterexamples. -/

/-- The empty Firestore state. -/
def st0 : Store := fun _ _ => none

/-- A store holding one pre-existing `ads/ad_b1` document with an unrelated
field `keep`. -/
def stKeep : Store := fun c d =>
  if c = "ads" ∧ d = "ad_b1" then some (fun f => if f = "keep" then some (JVal.num 7) else none)
  else none

/-- Environment where auth succeeds, two brands load, and every write
resolves. -/
def envTwoBrands : Env :=
  { audiences := ["aud1"]
    verifies := fun _ _ => true
    now := "2026-01-01T00:00:00.000Z"
    brandsGet := Except.ok [("b1", [("name", JVal.str "Acme")]), ("b2", [])]
    setOutcome := fun _ => none }

/-- Environment identical to `envTwoBrands` except that the write for brand
`b1` is rejected while the write for brand `b2` resolves. -/
def envOneFails : Env :=
  { audiences := ["aud1"]
    verifies := fun _ _ => true
    now := "2026-01-01T00:00:00.000Z"
    brandsGet := Except.ok [("b1", []), ("b2", [])]
    setOutcome := fun d => if d = "ad_b1" then some "write-failed" else none }

/-- Environment where the `brands` collection read rejects with the message
"no-token". -/
def envNoTokRead : Env :=
  { audiences := ["aud1"]
    verifies := fun _ _ => true
    now := "2026-01-01T00:00:00.000Z"
    brandsGet := Except.error "no-token"
    setOutcome := fun _ => none }

/-- Environment with two configured audiences where the token "abc" verifies
only for the second. -/
def envAud : Env :=
  { audiences := ["audX", "audY"]
    verifies := fun tok aud => tok = "abc" && aud = "audY"
    now := "2026-01-01T00:00:00.000Z"
    brandsGet := Except.ok []
    setOutcome := fun _ => none }

/-! Helper lemmas about the app.js embedding. -/

/-- The Bearer regex capture is non-empty. -/
theorem bearerToken_ne_empty {h t : String} (hb : bearerToken h = some t) : t ≠ "" := by
  unfold bearerToken at hb
  split at hb
  · rename_i rest hs
    split at hb
    · cases hb
    · rename_i hcond
      have hmk := Option.some.inj hb
      intro hEmpty
      apply hcond
      have hdata : rest = [] := by
        have h2 := congrArg String.data hmk
        rw [hEmpty] at h2
        simpa using h2
      simp [hdata]
  · cases hb

/-- A `catchResp` response never has status 200. -/
theorem catchResp_status_ne_200 (m : String) : (catchResp m).status ≠ 200 := by
  unfold catchResp
  split <;> simp

/-- Claim C5: a `POST /run` request carrying no Authorization header gets the
401 `missing-token` response, and no external call of any kind (brand-store
read, verification, document write) is issued; the store is untouched. -/
theorem run_no_header_rejected (env : Env) (st : Store) :
    (runHandler env st none).resp = ⟨401, errBody "missing-token"⟩ ∧
    (runHandler env st none).trace = [] ∧
    (runHandler env st none).store = st :=
  ⟨rfl, rfl, rfl⟩

/-- Claim C8: any Authorization header the `/^Bearer (.+)$/` regex rejects
(lowercase `bearer`, a bare `Bearer`, a Basic credential, ...) is treated
exactly like an absent header: 401 `missing-token`, no external call, store
untouched. -/
theorem run_malformed_header_rejected (env : Env) (st : Store) (h : String)
    (hn : bearerToken h = none) :
    (runHandler env st (some h)).resp = ⟨401, errBody "missing-token"⟩ ∧
    (runHandler env st (some h)).trace = [] ∧
    (runHandler env st (some h)).store = st := by
  simp [runHandler, hn]

/-- Witness for C8 at the concrete headers "bearer abc", "Bearer" and
"Basic dXNlcg==". -/
theorem run_malformed_header_rejected_witness :
    ((runHandler envTwoBrands st0 (some "bearer abc")).resp =
        ⟨401, errBody "missing-token"⟩ ∧
      (runHandler envTwoBrands st0 (some "bearer abc")).trace = [] ∧
      (runHandler envTwoBrands st0 (some "bearer abc")).store = st0) ∧
    ((runHandler envTwoBrands st0 (some "Bearer")).resp =
        ⟨401, errBody "missing-token"⟩ ∧
      (runHandler envTwoBrands st0 (some "Bearer")).trace = [] ∧
      (runHandler envTwoBrands st0 (some "Bearer")).store = st0) ∧
    ((runHandler envTwoBrands st0 (some "Basic dXNlcg==")).resp =
        ⟨401, errBody "missing-token"⟩ ∧
      (runHandler envTwoBrands st0 (some "Basic dXNlcg==")).trace = [] ∧
      (runHandler envTwoBrands st0 (some "Basic dXNlcg==")).store = st0) :=
  ⟨run_malformed_header_rejected envTwoBrands st0 "bearer abc" (by decide),
   run_malformed_header_rejected envTwoBrands st0 "Bearer" (by decide),
   run_malformed_header_rejected envTwoBrands st0 "Basic dXNlcg==" (by decide)⟩

/-- Claim C4: the auth gate fails closed.  For a bearer token captured by the
regex: verification succeeds exactly when some configured audience validates
the token; when every configured audience fails, or the configured audience
list is empty, `verifyIdToken` fails with `invalid-token` and `/run` answers
401 `{"error":"invalid-token"}`. -/
theorem auth_gate_fails_closed (env : Env) (st : Store) (hdr tok : String)
    (hb : bearerToken hdr = some tok) :
    ((∃ aud ∈ env.audiences, env.verifies tok aud = true) →
        verifyIdToken env tok = Except.ok ()) ∧
    ((∀ aud ∈ env.audiences, env.verifies tok aud = false) →
        verifyIdToken env tok = Except.error "invalid-token" ∧
        (runHandler env st (some hdr)).resp = ⟨401, errBody "invalid-token"⟩) ∧
    (env.audiences = [] →
        verifyIdToken env tok = Except.error "invalid-token" ∧
        (runHandler env st (some hdr)).resp = ⟨401, errBody "invalid-token"⟩) := by
  have ht : tok ≠ "" := bearerToken_ne_empty hb
  refine ⟨?_, ?_, ?_⟩
  · intro hex
    unfold verifyIdToken
    rw [if_neg ht, if_pos]
    rw [List.any_eq_true]
    obtain ⟨aud, hmem, hva⟩ := hex
    exact ⟨aud, hmem, hva⟩
  · intro hall
    have hv : verifyIdToken env tok = Except.error "invalid-token" := by
      unfold verifyIdToken
      rw [if_neg ht, if_neg]
      simp only [List.any_eq_true, not_exists]
      rintro aud ⟨hmem, hva⟩
      rw [hall aud hmem] at hva
      cases hva
    refine ⟨hv, ?_⟩
    simp [runHandler, hb, hv, catchResp]
  · intro hnil
    have hv : verifyIdToken env tok = Except.error "invalid-token" := by
      unfold verifyIdToken
      rw [if_neg ht, hnil]
      rfl
    refine ⟨hv, ?_⟩
    simp [runHandler, hb, hv, catchResp]

/-- Witness for C4: the token "abc" validates for the second of two
configured audiences, so verification succeeds; and the token "zzz", which
no audience validates, is rejected with 401 `invalid-token`. -/
theorem auth_gate_fails_closed_witness :
    verifyIdToken envAud "abc" = Except.ok () ∧
    (verifyIdToken envAud "zzz" = Except.error "invalid-token" ∧
      (runHandler envAud st0 (some "Bearer zzz")).resp =
        ⟨401, errBody "invalid-token"⟩) :=
  ⟨(auth_gate_fails_closed envAud st0 "Bearer abc" "abc" (by decide)).1
      ⟨"audY", by decide, by decide⟩,
   (auth_gate_fails_closed envAud st0 "Bearer zzz" "zzz" (by decide)).2.1
      (by decide)⟩

/-- The catch block's body is always `{"error": m}`. -/
theorem catchResp_body (m : String) : (catchResp m).body = errBody m := by
  unfold catchResp
  split <;> rfl

/-- The catch block answers 401 or 500. -/
theorem catchResp_status (m : String) :
    (catchResp m).status = 401 ∨ (catchResp m).status = 500 := by
  unfold catchResp
  split
  · exact Or.inl rfl
  · exact Or.inr rfl

/-- A 401 from the catch block carries the message `no-token` or
`invalid-token`. -/
theorem catchResp_401 {m : String} (h : (catchResp m).status = 401) :
    m = "no-token" ∨ m = "invalid-token" := by
  unfold catchResp at h
  split at h
  · assumption
  · simp at h

/-- With a non-empty token, `verifyIdToken` can only fail with
`invalid-token`. -/
theorem verifyIdToken_error {env : Env} {tok m : String} (ht : tok ≠ "")
    (h : verifyIdToken env tok = Except.error m) : m = "invalid-token" := by
  unfold verifyIdToken at h
  rw [if_neg ht] at h
  split at h
  · cases h
  · injection h with h2
    exact h2.symm

/-- A message surfaced by `firstFailure` is the outcome of some write. -/
theorem firstFailure_mem {ops : List (String × Payload)} {oc : String → Option String}
    {m : String} (h : firstFailure ops oc = some m) : ∃ d, oc d = some m := by
  unfold firstFailure at h
  have hmem : m ∈ ops.filterMap (fun op => oc op.1) := by
    cases hl : ops.filterMap (fun op => oc op.1) with
    | nil => rw [hl] at h; cases h
    | cons a l =>
      rw [hl, List.head?_cons] at h
      injection h with h2
      rw [← h2]
      exact List.mem_cons_self a l
  obtain ⟨op, _, hoc⟩ := List.mem_filterMap.mp hmem
  exact ⟨op.1, hoc⟩

/-- Counterexample to claim C1: in `envOneFails` exactly one of the two
brands' writes is rejected (brand `b1`), yet the whole `POST /run` call
answers 500 — app.js has no per-brand error boundary, no `brandsFailed`
count and no per-brand logs: the single rejection propagates through
`Promise.all` to the catch block. -/
theorem batch_isolation_counterexample :
    envOneFails.brandsGet = Except.ok [("b1", []), ("b2", [])] ∧
    envOneFails.setOutcome (adDocId "b1") = some "write-failed" ∧
    envOneFails.setOutcome (adDocId "b2") = none ∧
    (runHandler envOneFails st0 (some "Bearer tok")).resp =
      ⟨500, errBody "write-failed"⟩ :=
  ⟨rfl, rfl, rfl, rfl⟩

/-- Claim C1 as amended: an error raised while writing any single brand's
document is NOT isolated: whenever authentication succeeds, the brand list
loads, and at least one brand's write is rejected, the whole batch call
returns the catch block's response for the first rejected write's message —
a non-ok (500, or 401 for the reserved messages) response, with no
`brandsFailed` count. -/
theorem batch_not_isolated_amended (env : Env) (st : Store)
    (hdr tok m : String) (docs : List (String × Payload))
    (hb : bearerToken hdr = some tok)
    (hv : verifyIdToken env tok = Except.ok ())
    (hg : env.brandsGet = Except.ok docs)
    (hf : firstFailure (runOps env docs) env.setOutcome = some m) :
    (runHandler env st (some hdr)).resp = catchResp m ∧
    (runHandler env st (some hdr)).resp.status ≠ 200 := by
  have hr : (runHandler env st (some hdr)).resp = catchResp m := by
    simp [runHandler, hb, hv, hg, hf]
  refine ⟨hr, ?_⟩
  rw [hr]
  exact catchResp_status_ne_200 m

/-- Witness for the amended C1 at the concrete failing environment. -/
theorem batch_not_isolated_amended_witness :
    (runHandler envOneFails st0 (some "Bearer tok")).resp = catchResp "write-failed" ∧
    (runHandler envOneFails st0 (some "Bearer tok")).resp.status ≠ 200 :=
  batch_not_isolated_amended envOneFails st0 "Bearer tok" "tok" "write-failed"
    [("b1", []), ("b2", [])] (by decide) rfl rfl rfl

/-- Counterexample to claim C6: a fully successful run through app.js
answers 200 with body `{status: "ok", processed: 2}` — none of the claimed
fields `brandsProcessed`, `brandsFailed`, `adsFetched`, `tasksCreated`,
`tasksSkipped`, `logs` is present. -/
theorem run_response_shape_counterexample :
    (runHandler envTwoBrands st0 (some "Bearer tok")).resp.status = 200 ∧
    (runHandler envTwoBrands st0 (some "Bearer tok")).resp.body =
      [("status", JVal.str "ok"), ("processed", JVal.num 2)] ∧
    (runHandler envTwoBrands st0 (some "Bearer tok")).resp.body.lookup "brandsProcessed" = none ∧
    (runHandler envTwoBrands st0 (some "Bearer tok")).resp.body.lookup "brandsFailed" = none ∧
    (runHandler envTwoBrands st0 (some "Bearer tok")).resp.body.lookup "adsFetched" = none ∧
    (runHandler envTwoBrands st0 (some "Bearer tok")).resp.body.lookup "tasksCreated" = none ∧
    (runHandler envTwoBrands st0 (some "Bearer tok")).resp.body.lookup "tasksSkipped" = none ∧
    (runHandler envTwoBrands st0 (some "Bearer tok")).resp.body.lookup "logs" = none := by
  decide

/-- Claim C6 as amended: every `/run` response has status 200, 401 or 500; a
200 carries exactly `{status: "ok", processed: n}` with `n` the number of
brand documents loaded; every non-200 carries `{"error": message}`. -/
theorem run_response_shape_amended (env : Env) (st : Store) (ah : Option String) :
    ((runHandler env st ah).resp.status = 200 ∨ (runHandler env st ah).resp.status = 401 ∨
      (runHandler env st ah).resp.status = 500) ∧
    ((runHandler env st ah).resp.status = 200 →
      ∃ docs, env.brandsGet = Except.ok docs ∧
        (runHandler env st ah).resp.body =
          [("status", JVal.str "ok"), ("processed", JVal.num (Int.ofNat docs.length))]) ∧
    ((runHandler env st ah).resp.status ≠ 200 →
      ∃ m, (runHandler env st ah).resp.body = errBody m) := by
  have hcatch : ∀ m : String,
      ((catchResp m).status = 200 ∨ (catchResp m).status = 401 ∨
        (catchResp m).status = 500) ∧
      (catchResp m).status ≠ 200 ∧ (catchResp m).body = errBody m :=
    fun m => ⟨(catchResp_status m).elim (fun h => Or.inr (Or.inl h))
        (fun h => Or.inr (Or.inr h)),
      catchResp_status_ne_200 m, catchResp_body m⟩
  unfold runHandler
  split
  · exact ⟨Or.inr (Or.inl rfl), fun h => absurd h (by simp),
      fun _ => ⟨"missing-token", rfl⟩⟩
  · split
    · rename_i m hm
      obtain ⟨hs, hne, hb⟩ := hcatch m
      exact ⟨hs, fun h => absurd h hne, fun _ => ⟨m, hb⟩⟩
    · split
      · rename_i m hm
        obtain ⟨hs, hne, hb⟩ := hcatch m
        exact ⟨hs, fun h => absurd h hne, fun _ => ⟨m, hb⟩⟩
      · rename_i docs hdocs
        split
        · rename_i m hm
          obtain ⟨hs, hne, hb⟩ := hcatch m
          exact ⟨hs, fun h => absurd h hne, fun _ => ⟨m, hb⟩⟩
        · exact ⟨Or.inl rfl, fun _ => ⟨docs, hdocs, rfl⟩, fun h => absurd rfl h⟩

/-- Witness for the amended C6: the concrete two-brand success run. -/
theorem run_response_shape_amended_witness :
    ∃ docs, envTwoBrands.brandsGet = Except.ok docs ∧
      (runHandler envTwoBrands st0 (some "Bearer tok")).resp.body =
        [("status", JVal.str "ok"), ("processed", JVal.num (Int.ofNat docs.length))] :=
  (run_response_shape_amended envTwoBrands st0 (some "Bearer tok")).2.1 rfl

/-- An external failure whose message is literally "no-token": a rejected
`brands` read or a rejected document write carrying that exact message. -/
def externalNoToken (env : Env) : Prop :=
  env.brandsGet = Except.error "no-token" ∨ ∃ d, env.setOutcome d = some "no-token"

/-- Counterexample to claim C9: when the `brands` collection read rejects
with an error whose message is exactly "no-token", the catch block (app.js
line 65) matches it and `/run` answers `401 {"error":"no-token"}` — so a
401 body other than missing-token/invalid-token is reachable. -/
theorem no_token_branch_counterexample :
    envNoTokRead.brandsGet = Except.error "no-token" ∧
    (runHandler envNoTokRead st0 (some "Bearer tok")).resp =
      ⟨401, errBody "no-token"⟩ :=
  ⟨rfl, rfl⟩

/-- Claim C9 as amended: `verifyIdToken` is only ever invoked with the
non-empty Bearer capture, so its own no-token branch never fires from the
HTTP surface; every 401 response carries missing-token or invalid-token
except when an external call (the brand-store read or a document write)
fails with the exact message "no-token", which the catch block also maps to
a 401 with that body. -/
theorem no_token_branch_amended (env : Env) (st : Store) (ah : Option String) :
    (∀ t, Effect.verifyTok t ∈ (runHandler env st ah).trace → t ≠ "") ∧
    ((runHandler env st ah).resp.status = 401 →
      (runHandler env st ah).resp.body = errBody "missing-token" ∨
      (runHandler env st ah).resp.body = errBody "invalid-token" ∨
      ((runHandler env st ah).resp.body = errBody "no-token" ∧
        externalNoToken env)) := by
  unfold runHandler
  split
  · refine ⟨?_, fun _ => Or.inl rfl⟩
    intro t hmem
    simp at hmem
  · rename_i tok htok
    have htne : tok ≠ "" := bearerToken_ne_empty htok
    split
    · rename_i m hm
      have hmv : m = "invalid-token" := verifyIdToken_error htne hm
      subst hmv
      refine ⟨?_, fun _ => Or.inr (Or.inl (catchResp_body "invalid-token"))⟩
      intro t hmem
      simp only [List.mem_singleton] at hmem
      injection hmem with h2
      rw [h2]
      exact htne
    · split
      · rename_i m hm
        refine ⟨?_, ?_⟩
        · intro t hmem
          simp only [List.mem_cons, List.not_mem_nil, or_false] at hmem
          rcases hmem with h2 | h2
          · injection h2 with h3
            rw [h3]
            exact htne
          · cases h2
        · intro hst
          rcases catchResp_401 hst with h2 | h2
          · subst h2
            exact Or.inr (Or.inr ⟨catchResp_body "no-token", Or.inl hm⟩)
          · subst h2
            exact Or.inr (Or.inl (catchResp_body "invalid-token"))
      · rename_i docs hdocs
        have htr : ∀ t, Effect.verifyTok t ∈
            [Effect.verifyTok tok, Effect.getBrands] ++
              (runOps env docs).map (fun op => Effect.setAd op.1 op.2) → t ≠ "" := by
          intro t hmem
          simp only [List.mem_append, List.mem_cons, List.not_mem_nil, or_false,
            List.mem_map] at hmem
          rcases hmem with (h2 | h2) | ⟨op, _, h2⟩
          · injection h2 with h3
            rw [h3]
            exact htne
          · cases h2
          · cases h2
        split
        · rename_i m hm
          refine ⟨htr, ?_⟩
          intro hst
          rcases catchResp_401 hst with h2 | h2
          · subst h2
            refine Or.inr (Or.inr ⟨catchResp_body "no-token", Or.inr ?_⟩)
            exact firstFailure_mem hm
          · subst h2
            exact Or.inr (Or.inl (catchResp_body "invalid-token"))
        · refine ⟨htr, ?_⟩
          intro hst
          simp at hst

/-- Witness for the amended C9: the missing-header run, whose 401 is
classified by the theorem. -/
theorem no_token_branch_amended_witness :
    (runHandler envTwoBrands st0 none).resp.body = errBody "missing-token" ∨
    (runHandler envTwoBrands st0 none).resp.body = errBody "invalid-token" ∨
    ((runHandler envTwoBrands st0 none).resp.body = errBody "no-token" ∧
      externalNoToken envTwoBrands) :=
  (no_token_branch_amended envTwoBrands st0 none).2 rfl

/-- The four fields every per-brand write carries. -/
def payloadKeys : List String := ["brandId", "brandName", "fetchedAt", "source"]

/-- Is this effect a write to the given ads document? -/
def isSetTo (d : String) : Effect → Bool
  | Effect.setAd d2 _ => d2 = d
  | _ => false

/-- Unfolding one step of the write fold. -/
theorem applyOps_cons (op : String × Payload) (ops : List (String × Payload))
    (oc : String → Option String) (st : Store) :
    applyOps (op :: ops) oc st =
      applyOps ops oc (if oc op.1 = none then setMerge st "ads" op.1 op.2 else st) := rfl

/-- Documents outside the touched keys are never modified: any collection
other than `ads`, and any `ads` document whose id is not among the ops'. -/
theorem applyOps_frame : ∀ (ops : List (String × Payload)) (oc : String → Option String)
    (st : Store) (c d : String),
    (c ≠ "ads" ∨ ∀ op ∈ ops, d ≠ op.1) → applyOps ops oc st c d = st c d
  | [], _, _, _, _, _ => rfl
  | op :: ops, oc, st, c, d, h => by
    rw [applyOps_cons]
    have h2 : c ≠ "ads" ∨ ∀ op2 ∈ ops, d ≠ op2.1 :=
      h.imp id (fun hd op2 hm => hd op2 (List.mem_cons_of_mem _ hm))
    rw [applyOps_frame ops oc _ c d h2]
    split
    · unfold setMerge
      rw [if_neg]
      rintro ⟨h3, h4⟩
      cases h with
      | inl hc => exact hc h3
      | inr hd => exact hd op (List.mem_cons_self op ops) h4
    · rfl

/-- Fields outside every op's payload keys are never modified, in any
document of any collection. -/
theorem applyOps_field_frame : ∀ (ops : List (String × Payload)) (oc : String → Option String)
    (st : Store) (c d f : String),
    (∀ op ∈ ops, op.2.lookup f = none) →
    docField (applyOps ops oc st c d) f = docField (st c d) f
  | [], _, _, _, _, _, _ => rfl
  | op :: ops, oc, st, c, d, f, h => by
    rw [applyOps_cons]
    rw [applyOps_field_frame ops oc _ c d f
      (fun op2 hm => h op2 (List.mem_cons_of_mem _ hm))]
    split
    · unfold setMerge
      split
      · rename_i hcd
        obtain ⟨hc, hd⟩ := hcd
        subst hc
        subst hd
        simp only [docField, Option.some_bind]
        unfold mergeInto
        rw [h op (List.mem_cons_self op ops)]
        rfl
      · rfl
    · rfl

/-- The per-brand payload has no field outside `payloadKeys`. -/
theorem adPayload_lookup_none (now bid : String) (data : Payload) (f : String)
    (h : f ∉ payloadKeys) : (adPayload now bid data).lookup f = none := by
  simp only [payloadKeys, List.mem_cons, List.not_mem_nil, or_false, not_or] at h
  obtain ⟨h1, h2, h3, h4⟩ := h
  have b1 : (f == "brandId") = false := by simp [h1]
  have b2 : (f == "brandName") = false := by simp [h2]
  have b3 : (f == "fetchedAt") = false := by simp [h3]
  have b4 : (f == "source") = false := by simp [h4]
  simp [adPayload, List.lookup, b1, b2, b3, b4]

/-- `ad_` document ids are distinct for distinct brands. -/
theorem adDocId_inj {a b : String} (h : adDocId a = adDocId b) : a = b := by
  obtain ⟨da⟩ := a
  obtain ⟨db⟩ := b
  have h2 := congrArg String.data h
  simp only [adDocId, String.data_append] at h2
  apply congrArg String.mk
  simpa using h2

/-- Counting the write effects aimed at one brand's ads document: one per
occurrence of that brand id in the snapshot. -/
theorem countP_setAd (env : Env) (b : String) : ∀ docs : List (String × Payload),
    ((runOps env docs).map (fun op => Effect.setAd op.1 op.2)).countP
        (isSetTo (adDocId b)) =
      (docs.map Prod.fst).count b
  | [] => rfl
  | bd :: docs => by
    have ih := countP_setAd env b docs
    by_cases h : bd.1 = b
    · have h2 : adDocId bd.1 = adDocId b := by rw [h]
      simp [runOps, List.countP_cons, List.count_cons, isSetTo, h2, h, ih,
        runOps] at ih ⊢
      omega
    · have h2 : adDocId bd.1 ≠ adDocId b := fun hc => h (adDocId_inj hc)
      simp [runOps, List.countP_cons, List.count_cons, isSetTo, h2, h, ih,
        runOps] at ih ⊢
      omega

/-- When every write resolves, `Promise.all` surfaces no rejection. -/
theorem firstFailure_none {ops : List (String × Payload)} {oc : String → Option String}
    (h : ∀ op ∈ ops, oc op.1 = none) : firstFailure ops oc = none := by
  unfold firstFailure
  rw [List.filterMap_eq_nil_iff.mpr h]
  rfl

/-- Claim C10: on a successful `POST /run` the handler issues exactly one
write per brand, to the deterministic document id `ad_` ++ brandId in the
`ads` collection, with merge semantics; every collection other than `ads`
(in particular `brands`) is untouched, every `ads` document not keyed by a
loaded brand is untouched, and in every document every field outside
{brandId, brandName, fetchedAt, source} is untouched. -/
theorem single_merged_write_per_brand (env : Env) (st : Store) (hdr tok : String)
    (docs : List (String × Payload))
    (hb : bearerToken hdr = some tok)
    (hv : verifyIdToken env tok = Except.ok ())
    (hg : env.brandsGet = Except.ok docs)
    (hs : ∀ bd ∈ docs, env.setOutcome (adDocId bd.1) = none)
    (hnd : (docs.map Prod.fst).Nodup) :
    (runHandler env st (some hdr)).resp.status = 200 ∧
    (runHandler env st (some hdr)).trace =
      [Effect.verifyTok tok, Effect.getBrands] ++
        (runOps env docs).map (fun op => Effect.setAd op.1 op.2) ∧
    (∀ bd ∈ docs,
      (runHandler env st (some hdr)).trace.countP (isSetTo (adDocId bd.1)) = 1) ∧
    (∀ c d, c ≠ "ads" → (runHandler env st (some hdr)).store c d = st c d) ∧
    (∀ d2, (∀ bd ∈ docs, d2 ≠ adDocId bd.1) →
      (runHandler env st (some hdr)).store "ads" d2 = st "ads" d2) ∧
    (∀ c d f, f ∉ payloadKeys →
      docField ((runHandler env st (some hdr)).store c d) f = docField (st c d) f) := by
  have hops : ∀ op ∈ runOps env docs, env.setOutcome op.1 = none := by
    intro op hop
    obtain ⟨bd, hbd, heq⟩ := List.mem_map.mp hop
    rw [← heq]
    exact hs bd hbd
  have hff : firstFailure (runOps env docs) env.setOutcome = none := firstFailure_none hops
  have hout : runHandler env st (some hdr) =
      ⟨⟨200, [("status", JVal.str "ok"), ("processed", JVal.num (Int.ofNat docs.length))]⟩,
        applyOps (runOps env docs) env.setOutcome st,
        [Effect.verifyTok tok, Effect.getBrands] ++
          (runOps env docs).map (fun op => Effect.setAd op.1 op.2)⟩ := by
    simp [runHandler, hb, hv, hg, hff]
  rw [hout]
  refine ⟨rfl, rfl, ?_, ?_, ?_, ?_⟩
  · intro bd hbd
    rw [List.countP_append]
    rw [countP_setAd env bd.1 docs]
    rw [show ([Effect.verifyTok tok, Effect.getBrands].countP (isSetTo (adDocId bd.1))) = 0
      from rfl]
    rw [Nat.zero_add]
    exact List.count_eq_one_of_mem hnd (List.mem_map.mpr ⟨bd, hbd, rfl⟩)
  · intro c d hc
    exact applyOps_frame _ _ _ _ _ (Or.inl hc)
  · intro d2 hd2
    apply applyOps_frame
    refine Or.inr ?_
    intro op hop
    obtain ⟨bd, hbd, heq⟩ := List.mem_map.mp hop
    rw [← heq]
    exact hd2 bd hbd
  · intro c d f hf
    apply applyOps_field_frame
    intro op hop
    obtain ⟨bd, hbd, heq⟩ := List.mem_map.mp hop
    rw [← heq]
    exact adPayload_lookup_none env.now bd.1 bd.2 f hf

/-- Witness for C10: the concrete two-brand success run over a store that
already holds an `ads/ad_b1` document with an extra field `keep`, which the
merged write leaves unchanged; the `brands` collection is untouched. -/
theorem single_merged_write_per_brand_witness :
    (runHandler envTwoBrands stKeep (some "Bearer tok")).resp.status = 200 ∧
    (runHandler envTwoBrands stKeep (some "Bearer tok")).trace.countP
      (isSetTo (adDocId "b1")) = 1 ∧
    docField ((runHandler envTwoBrands stKeep (some "Bearer tok")).store "ads" "ad_b1")
      "keep" = docField (stKeep "ads" "ad_b1") "keep" ∧
    (runHandler envTwoBrands stKeep (some "Bearer tok")).store "brands" "b1" =
      stKeep "brands" "b1" :=
  ⟨(single_merged_write_per_brand envTwoBrands stKeep "Bearer tok" "tok"
      [("b1", [("name", JVal.str "Acme")]), ("b2", [])]
      (by decide) rfl rfl (by decide) (by decide)).1,
   (single_merged_write_per_brand envTwoBrands stKeep "Bearer tok" "tok"
      [("b1", [("name", JVal.str "Acme")]), ("b2", [])]
      (by decide) rfl rfl (by decide) (by decide)).2.2.1
      ("b1", [("name", JVal.str "Acme")]) (by decide),
   (single_merged_write_per_brand envTwoBrands stKeep "Bearer tok" "tok"
      [("b1", [("name", JVal.str "Acme")]), ("b2", [])]
      (by decide) rfl rfl (by decide) (by decide)).2.2.2.2.2
      "ads" "ad_b1" "keep" (by decide),
   (single_merged_write_per_brand envTwoBrands stKeep "Bearer tok" "tok"
      [("b1", [("name", JVal.str "Acme")]), ("b2", [])]
      (by decide) rfl rfl (by decide) (by decide)).2.2.2.1
      "brands" "b1" (by decide)⟩

/-! Dispatcher lemmas (spec-modelled Task Dispatcher, §4.3). -/

/-- One dispatch step never removes keys from the queue. -/
theorem dstep_keys_mono (hf : String → Bool) (o : DispatchOut) (a : Ad) :
    o.queue.keys ⊆ (dstep hf o a).queue.keys := by
  unfold dstep
  split
  · exact fun x hx => hx
  · split
    · exact fun x hx => hx
    · exact fun x hx => List.mem_cons_of_mem _ hx

/-- One dispatch step never decreases the error count. -/
theorem dstep_err_mono (hf : String → Bool) (o : DispatchOut) (a : Ad) :
    o.errored ≤ (dstep hf o a).errored := by
  unfold dstep
  split
  · exact Nat.le_refl _
  · split
    · exact Nat.le_succ _
    · exact Nat.le_refl _

/-- Folding dispatch steps never removes keys from the queue. -/
theorem dfold_keys_mono (hf : String → Bool) : ∀ (ads : List Ad) (o : DispatchOut),
    o.queue.keys ⊆ (ads.foldl (dstep hf) o).queue.keys
  | [], _ => fun _ hx => hx
  | a :: ads, o => fun _ hx =>
    dfold_keys_mono hf ads (dstep hf o a) (dstep_keys_mono hf o a hx)

/-- Folding dispatch steps never decreases the error count. -/
theorem dfold_err_mono (hf : String → Bool) : ∀ (ads : List Ad) (o : DispatchOut),
    o.errored ≤ (ads.foldl (dstep hf) o).errored
  | [], _ => Nat.le_refl _
  | a :: ads, o =>
    Nat.le_trans (dstep_err_mono hf o a) (dfold_err_mono hf ads (dstep hf o a))

/-- If a dispatch fold finishes with no new error, the dedupe key of every
dispatched ad ended up in the queue. -/
theorem dfold_covers (hf : String → Bool) : ∀ (ads : List Ad) (o : DispatchOut),
    (ads.foldl (dstep hf) o).errored = o.errored →
    ∀ a ∈ ads, dedupeKey a.brandId a.id ∈ (ads.foldl (dstep hf) o).queue.keys
  | [], _, _, a, ha => absurd ha (List.not_mem_nil a)
  | b :: ads, o, herr, a, ha => by
    rw [List.foldl_cons] at herr ⊢
    rcases List.mem_cons.mp ha with h | h
    · subst h
      by_cases hmem : dedupeKey a.brandId a.id ∈ o.queue.keys
      · have hd : dstep hf o a = { o with skipped := o.skipped + 1 } := by
          unfold dstep
          rw [if_pos hmem]
        apply dfold_keys_mono hf ads (dstep hf o a)
        rw [hd]
        exact hmem
      · by_cases hhf : hf (dedupeKey a.brandId a.id) = true
        · exfalso
          have hd : dstep hf o a = { o with errored := o.errored + 1 } := by
            unfold dstep
            rw [if_neg hmem, if_pos hhf]
          have h2 := dfold_err_mono hf ads (dstep hf o a)
          rw [hd] at h2
          rw [hd] at herr
          rw [herr] at h2
          have h3 : o.errored + 1 ≤ o.errored := h2
          omega
        · have hd : dstep hf o a =
              ⟨⟨dedupeKey a.brandId a.id :: o.queue.keys⟩, o.created + 1,
                o.skipped, o.errored⟩ := by
            unfold dstep
            rw [if_neg hmem, if_neg (by simp [hhf])]
          apply dfold_keys_mono hf ads (dstep hf o a)
          rw [hd]
          exact List.mem_cons_self _ _
    · have h1 : o.errored ≤ (dstep hf o b).errored := dstep_err_mono hf o b
      have h2 := dfold_err_mono hf ads (dstep hf o b)
      have h3 : (ads.foldl (dstep hf) (dstep hf o b)).errored = (dstep hf o b).errored := by
        omega
      exact dfold_covers hf ads (dstep hf o b) h3 a h

/-- Dispatching ads whose keys are all already enqueued changes nothing but
the skip count. -/
theorem dfold_all_skipped (hf : String → Bool) : ∀ (ads : List Ad) (q : Queue) (c s e : Nat),
    (∀ a ∈ ads, dedupeKey a.brandId a.id ∈ q.keys) →
    ads.foldl (dstep hf) ⟨q, c, s, e⟩ = ⟨q, c, s + ads.length, e⟩
  | [], q, c, s, e, _ => by simp
  | a :: ads, q, c, s, e, h => by
    rw [List.foldl_cons]
    have hd : dstep hf ⟨q, c, s, e⟩ a = ⟨q, c, s + 1, e⟩ := by
      unfold dstep
      rw [if_pos (h a (List.mem_cons_self a ads))]
    rw [hd]
    rw [dfold_all_skipped hf ads q c (s + 1) e (fun a2 h2 => h a2 (List.mem_cons_of_mem _ h2))]
    rw [show s + 1 + ads.length = s + (a :: ads).length from by simp; omega]

/-- Claim C3 (spec-modelled): the dedupe key is a deterministic function of
(brandId, adId), and dispatching the same ad set a second time creates
nothing new: after a first dispatch with no hard enqueue failure, a second
dispatch of the same ads leaves the queue unchanged and reports every ad as
skipped, none as created. -/
theorem dispatch_idempotent (hf : String → Bool) (q : Queue) (ads : List Ad)
    (h1 : (dispatch hf q ads).errored = 0) :
    dispatch hf (dispatch hf q ads).queue ads =
      ⟨(dispatch hf q ads).queue, 0, ads.length, 0⟩ ∧
    (∀ a b : Ad, a.brandId = b.brandId → a.id = b.id →
      dedupeKey a.brandId a.id = dedupeKey b.brandId b.id) := by
  have hcov := dfold_covers hf ads ⟨q, 0, 0, 0⟩ h1
  constructor
  · have h2 := dfold_all_skipped hf ads (dispatch hf q ads).queue 0 0 0 hcov
    rw [Nat.zero_add] at h2
    exact h2
  · intro a b hab hid
    rw [dedupeKey, dedupeKey, hab, hid]

/-- Concrete ads and pages used by the sync-engine witnesses. -/
def adA : Ad := ⟨"a1", "b1", 105, "pa"⟩

def adB : Ad := ⟨"a2", "b1", 103, "pb"⟩

/-- Witness for C3: two fresh ads dispatched into an empty queue; the second
dispatch skips both and creates nothing. -/
theorem dispatch_idempotent_witness :
    dispatch (fun _ => false) (dispatch (fun _ => false) ⟨[]⟩ [adA, adB]).queue [adA, adB] =
      ⟨(dispatch (fun _ => false) ⟨[]⟩ [adA, adB]).queue, 0, 2, 0⟩ :=
  (dispatch_idempotent (fun _ => false) ⟨[]⟩ [adA, adB] (by decide)).1

/-- Claim C2 (spec-modelled): a brand's `lastFetchedAt` is advanced to the
run-start time exactly when the brand's entire ad set for the run was
determined — pagination completed without a page error and without hitting
the hard page bound — and dispatched without a hard failure (an empty ad
set needs no dispatch and also advances); any failure mid-pagination (a
page error, or truncation at the hard page bound with pages remaining) or
mid-dispatch leaves the brand document — and so its watermark — exactly as
it was before the run. -/
theorem watermark_advance (now : Nat) (api : List (Except String Page))
    (hf : String → Bool) (q : Queue) (b : BrandDoc) :
    ((∃ ads n, fetchNewAdsFull api (cutoffOf now b) = Except.ok (ads, n, false) ∧
        (dispatch hf q ads).errored = 0) →
      (runBrand now api hf q b).brand = { b with lastFetchedAt := some now }) ∧
    (¬ (∃ ads n, fetchNewAdsFull api (cutoffOf now b) = Except.ok (ads, n, false) ∧
        (dispatch hf q ads).errored = 0) →
      (runBrand now api hf q b).brand = b) := by
  unfold runBrand
  split
  · rename_i m hm
    refine ⟨?_, fun _ => rfl⟩
    rintro ⟨ads, n, hok, -⟩
    rw [hm] at hok
    cases hok
  · rename_i pr ads n truncated hp
    split
    · rename_i hd
      split
      · rename_i htr
        refine ⟨?_, fun _ => rfl⟩
        rintro ⟨ads2, n2, hok, -⟩
        rw [hp] at hok
        injection hok with h2
        have h3 : truncated = false := congrArg (fun t => t.2.2) h2
        rw [htr] at h3
        cases h3
      · rename_i htr
        refine ⟨fun _ => rfl, ?_⟩
        intro hno
        exfalso
        apply hno
        refine ⟨ads, n, ?_, hd⟩
        rw [hp]
        have h3 : truncated = false := by
          cases truncated
          · rfl
          · exact absurd rfl htr
        rw [h3]
    · rename_i hd
      refine ⟨?_, fun _ => rfl⟩
      rintro ⟨ads2, n2, hok, herr⟩
      rw [hp] at hok
      injection hok with h2
      have hads : ads2 = ads := (congrArg Prod.fst h2).symm
      rw [hads] at herr
      exact absurd herr hd

/-- Concrete pages: two fresh ads, then a page with an older ad, then a
further page beyond the stopping point. -/
def pageNew : Page := ⟨[adA, adB]⟩

def pageOld : Page := ⟨[⟨"a3", "b1", 99, "pc"⟩]⟩

def pageXtra : Page := ⟨[⟨"a4", "b1", 98, "pd"⟩]⟩

def apiW : List (Except String Page) :=
  [Except.ok pageNew, Except.ok pageOld, Except.ok pageXtra]

/-- An API serving 51 pages of fresh ads: pagination hits the 50-page bound
with an unfetched in-window page remaining. -/
def api51 : List (Except String Page) := List.replicate 51 (Except.ok pageNew)

/-- Witness for C2: a fully successful brand sync advances the watermark to
the run-start time 200; the same brand against an API that fails on page 2
keeps its watermark at 100; and a sync truncated by the 50-page bound (51
fresh pages) also keeps its watermark at 100. -/
theorem watermark_advance_witness :
    (runBrand 200 apiW (fun _ => false) ⟨[]⟩ ⟨"b1", "pg", some 100⟩).brand =
      { id := "b1", pageId := "pg", lastFetchedAt := some 200 } ∧
    (runBrand 200 [Except.ok pageNew, Except.error "api-down"] (fun _ => false) ⟨[]⟩
        ⟨"b1", "pg", some 100⟩).brand =
      { id := "b1", pageId := "pg", lastFetchedAt := some 100 } ∧
    (runBrand 2000 api51 (fun _ => false) ⟨[]⟩ ⟨"b1", "pg", some 100⟩).brand =
      { id := "b1", pageId := "pg", lastFetchedAt := some 100 } :=
  ⟨(watermark_advance 200 apiW (fun _ => false) ⟨[]⟩ ⟨"b1", "pg", some 100⟩).1
      ⟨[adA, adB], 2, rfl, by decide⟩,
   (watermark_advance 200 [Except.ok pageNew, Except.error "api-down"] (fun _ => false)
      ⟨[]⟩ ⟨"b1", "pg", some 100⟩).2
      (by
        rintro ⟨ads, n, hok, -⟩
        have h4 : fetchNewAdsFull [Except.ok pageNew, Except.error "api-down"]
            (cutoffOf 200 ⟨"b1", "pg", some 100⟩) = Except.error "api-down" := rfl
        rw [h4] at hok
        cases hok),
   (watermark_advance 2000 api51 (fun _ => false) ⟨[]⟩ ⟨"b1", "pg", some 100⟩).2
      (by
        rintro ⟨ads, n, hok, -⟩
        have h4 := congrArg
          (fun r => match r with
            | Except.ok (_, _, t) => t
            | Except.error _ => true) hok
        have h5 : (match fetchNewAdsFull api51 (cutoffOf 2000 ⟨"b1", "pg", some 100⟩) with
            | Except.ok (_, _, t) => t
            | Except.error _ => true) = false := h4
        exact absurd h5 (by decide))⟩

/-! Pagination Fetcher lemmas (spec-modelled, §4.2). -/

/-- Every ad a successful fetch returns is at or above the cutoff, provided
every ad already gathered is. -/
theorem fetchGo_all_new (co : Nat) : ∀ (api : List (Except String Page)) (fetched : Nat)
    (acc ads : List Ad) (n : Nat) (w : Bool),
    (∀ a ∈ acc, ¬ a.createdTime < co) →
    fetchGo co api fetched acc = Except.ok (ads, n, w) →
    ∀ a ∈ ads, ¬ a.createdTime < co
  | [], fetched, acc, ads, n, w, hacc, heq, a, ha => by
    unfold fetchGo at heq
    injection heq with h2
    have hads : acc = ads := congrArg Prod.fst h2
    rw [← hads] at ha
    exact hacc a ha
  | p :: rest, fetched, acc, ads, n, w, hacc, heq, a, ha => by
    unfold fetchGo at heq
    split at heq
    · injection heq with h2
      have hads : acc = ads := congrArg Prod.fst h2
      rw [← hads] at ha
      exact hacc a ha
    · split at heq
      · cases heq
      · rename_i page
        have hacc2 : ∀ a2 ∈ acc ++ page.ads.filter (fun x => co ≤ x.createdTime),
            ¬ a2.createdTime < co := by
          intro a2 ha2
          rcases List.mem_append.mp ha2 with h | h
          · exact hacc a2 h
          · have h3 := (List.mem_filter.mp h).2
            simp only [decide_eq_true_eq] at h3
            omega
        split at heq
        · injection heq with h2
          have hads : acc ++ page.ads.filter (fun x => co ≤ x.createdTime) = ads :=
            congrArg Prod.fst h2
          rw [← hads] at ha
          exact hacc2 a ha
        · exact fetchGo_all_new co rest (fetched + 1) _ ads n w hacc2 heq a ha

/-- Hitting an old ad on page `i` (with all earlier pages fresh and within
the page bound) stops pagination right there: exactly `i + 1` pages are
fetched, no matter how many more pages exist. -/
theorem fetchGo_halt (co : Nat) : ∀ (i : Nat) (api : List (Except String Page))
    (fetched : Nat) (acc : List Ad) (p : Page),
    api.get? i = some (Except.ok p) →
    hasOldAd co p = true →
    (∀ j, j < i → ∃ q2, api.get? j = some (Except.ok q2) ∧ hasOldAd co q2 = false) →
    fetched + i < MAX_PAGES →
    ∃ ads, fetchGo co api fetched acc = Except.ok (ads, fetched + i + 1, false)
  | 0, api, fetched, acc, p, hi, hold, _, hmax => by
    cases api with
    | nil => cases hi
    | cons x rest =>
      have hx : x = Except.ok p := by
        injection hi
      subst hx
      show ∃ ads,
        (if MAX_PAGES ≤ fetched then Except.ok (acc, fetched, true)
         else
           if hasOldAd co p = true then
             Except.ok (acc ++ p.ads.filter (fun a => co ≤ a.createdTime),
               fetched + 1, false)
           else
             fetchGo co rest (fetched + 1)
               (acc ++ p.ads.filter (fun a => co ≤ a.createdTime))) =
          Except.ok (ads, fetched + 0 + 1, false)
      rw [if_neg (by omega), if_pos hold]
      exact ⟨_, rfl⟩
  | i + 1, api, fetched, acc, p, hi, hold, hprev, hmax => by
    cases api with
    | nil => cases hi
    | cons x rest =>
      obtain ⟨q2, hq2, hqold⟩ := hprev 0 (Nat.succ_pos i)
      have hx : x = Except.ok q2 := by
        injection hq2
      subst hx
      show ∃ ads,
        (if MAX_PAGES ≤ fetched then Except.ok (acc, fetched, true)
         else
           if hasOldAd co q2 = true then
             Except.ok (acc ++ q2.ads.filter (fun a => co ≤ a.createdTime),
               fetched + 1, false)
           else
             fetchGo co rest (fetched + 1)
               (acc ++ q2.ads.filter (fun a => co ≤ a.createdTime))) =
          Except.ok (ads, fetched + (i + 1) + 1, false)
      rw [if_neg (by omega), if_neg (by simp [hqold])]
      have hi2 : rest.get? i = some (Except.ok p) := hi
      have hprev2 : ∀ j, j < i → ∃ q3, rest.get? j = some (Except.ok q3) ∧
          hasOldAd co q3 = false := by
        intro j hj
        exact hprev (j + 1) (Nat.succ_lt_succ hj)
      obtain ⟨ads, hads⟩ := fetchGo_halt co i rest (fetched + 1)
        (acc ++ q2.ads.filter (fun a => co ≤ a.createdTime)) p hi2 hold hprev2 (by omega)
      refine ⟨ads, ?_⟩
      rw [show fetched + (i + 1) + 1 = fetched + 1 + i + 1 from by omega]
      exact hads

/-- Claim C7 (spec-modelled): the Pagination Fetcher's output never contains
an ad strictly older than the cutoff; and — under the documented
precondition that the API returns pages in descending recency order — when
page `i` is the first page holding an ad older than the cutoff (within the
hard page bound), pagination halts there, fetching exactly `i + 1` pages
even if further pages exist. -/
theorem pagination_cutoff (api : List (Except String Page)) (cutoff i : Nat) (p : Page)
    (_hdesc : pagesDescending api)
    (hi : api.get? i = some (Except.ok p))
    (hold : hasOldAd cutoff p = true)
    (hprev : ∀ j, j < i → ∃ q2, api.get? j = some (Except.ok q2) ∧
      hasOldAd cutoff q2 = false)
    (hmax : i < MAX_PAGES) :
    (∀ (api2 : List (Except String Page)) (co : Nat) (ads : List Ad) (n : Nat),
      fetchNewAds api2 co = Except.ok (ads, n) → ∀ a ∈ ads, ¬ a.createdTime < co) ∧
    ∃ ads, fetchNewAds api cutoff = Except.ok (ads, i + 1) := by
  constructor
  · intro api2 co ads n heq a ha
    unfold fetchNewAds at heq
    split at heq
    · cases heq
    · rename_i ads2 n2 w2 hfull
      injection heq with h2
      have hads : ads2 = ads := congrArg Prod.fst h2
      rw [← hads] at ha
      exact fetchGo_all_new co api2 0 [] ads2 n2 w2
        (fun a2 h2x => absurd h2x (List.not_mem_nil a2)) hfull a ha
  · obtain ⟨ads, hads⟩ := fetchGo_halt cutoff i api 0 [] p hi hold hprev (by omega)
    rw [Nat.zero_add] at hads
    refine ⟨ads, ?_⟩
    unfold fetchNewAds fetchNewAdsFull
    rw [hads]

/-- Witness for C7 at the concrete three-page API (old ad on page 2, one
further page behind it): exactly two pages fetched, two fresh ads kept. -/
theorem pagination_cutoff_witness :
    ∃ ads, fetchNewAds apiW 100 = Except.ok (ads, 2) :=
  (pagination_cutoff apiW 100 1 pageOld (by decide) rfl (by decide)
    (by
      intro j hj
      interval_cases j
      exact ⟨pageNew, rfl, by decide⟩)
    (by decide)).2
